import Mathlib

/-!
Verification development for the OfflineSiem log-analysis application.

The repository splits into a TypeScript/React frontend (present in the
snapshot) and a Rust engine reached through command invocations; the engine
sources are not part of the snapshot, so the condition evaluator, path
resolver and scan orchestrator below are modelled from the specification
text (sections 3, 4.2, 4.3 and 4.5), while the frontend behaviours
(services, rules page, scan page, events view, rule editor) are translated
directly from the TypeScript sources.

All string processing is done on `List Char` with structural recursion so
that every definition evaluates by `rfl`/`decide` on concrete inputs.
-/

/- ## Character utilities -/

/-- The single-quote character used for string literals in conditions. -/
def quoteCh : Char := Char.ofNat 39

/-- Opening parenthesis. -/
def openCh : Char := Char.ofNat 40

/-- Closing parenthesis. -/
def closeCh : Char := Char.ofNat 41

/-- The dot separating path segments. -/
def dotCh : Char := Char.ofNat 46

/-- Opening square bracket of an indexed path segment. -/
def obrCh : Char := Char.ofNat 91

/-- Closing square bracket of an indexed path segment. -/
def cbrCh : Char := Char.ofNat 93

/-- Comma separating IN-list elements. -/
def commaCh : Char := Char.ofNat 44

/-- Whitespace recognised when trimming atoms. -/
def isSpaceCh (c : Char) : Bool :=
  c.toNat = 32 || c.toNat = 9 || c.toNat = 10 || c.toNat = 13

/-- Trim whitespace from both ends of a character list. -/
def trimChars (cs : List Char) : List Char :=
  ((cs.dropWhile isSpaceCh).reverse.dropWhile isSpaceCh).reverse

/-- Does `pat` occur at the head of `s` (exact characters)? -/
def leadsWith : List Char → List Char → Bool
  | [], _ => true
  | _ :: _, [] => false
  | p :: ps, c :: cs => p = c && leadsWith ps cs

/-- Does `pat` occur at the end of `s` (exact characters)? -/
def trailsWith (pat s : List Char) : Bool :=
  leadsWith pat.reverse s.reverse

/-- Drop the last `n` characters. -/
def dropLastN (n : Nat) (cs : List Char) : List Char :=
  cs.take (cs.length - n)

/-- Prepend a character onto the head group of a grouped character list. -/
def consHead (c : Char) : List (List Char) → List (List Char)
  | [] => [[c]]
  | g :: gs => (c :: g) :: gs

/-- Split a character list at every unquoted occurrence of `sep`,
tracking single-quote state. -/
def splitCharQ (sep : Char) : Bool → List Char → List (List Char)
  | _, [] => [[]]
  | inQ, c :: cs =>
    if c = quoteCh then consHead c (splitCharQ sep (!inQ) cs)
    else if c = sep ∧ inQ = false then [] :: splitCharQ sep inQ cs
    else consHead c (splitCharQ sep inQ cs)

/-- Numeric value of a decimal digit character. -/
def digitVal (c : Char) : Option Nat :=
  if 48 ≤ c.toNat ∧ c.toNat ≤ 57 then some (c.toNat - 48) else none

/-- Parse a non-empty all-digit character list as a natural number. -/
def natFromChars (cs : List Char) : Option Nat :=
  cs.foldl (fun acc c => acc.bind fun n => (digitVal c).map fun d => n * 10 + d)
    (if cs.isEmpty then none else some 0)

/-- Parse an optionally negated decimal integer. -/
def intFromChars : List Char → Option Int
  | [] => none
  | c :: cs =>
    if c.toNat = 45 then (natFromChars cs).map fun n => -(n : Int)
    else (natFromChars (c :: cs)).map fun n => (n : Int)

/- ## Data model (spec section 3) -/

/-- JSON values as carried by parsed log records (spec section 3: null,
bool, number, string, array, object).  Numbers are modelled as integers. -/
inductive Json where
  | null : Json
  | bool (b : Bool) : Json
  | num (n : Int) : Json
  | str (s : String) : Json
  | arr (xs : List Json) : Json
  | obj (fields : List (String × Json)) : Json

/-- A record: a mapping from string keys to JSON values (spec section 3). -/
abbrev Record := List (String × Json)

/-- Modelled from the spec: one segment of a dotted field path — a name
lookup or a bracketed array index (spec section 3, Field Path). -/
inductive PathSeg where
  | key (name : String) : PathSeg
  | idx (i : Nat) : PathSeg
deriving DecidableEq

/-- Modelled from the spec: a path segment of the form `name[idx]` is split
into a name lookup followed by an array index (spec section 4.2). -/
def parseSegChars (g : List Char) : List PathSeg :=
  match splitCharQ obrCh false g with
  | [] => []
  | n :: rest =>
    PathSeg.key (String.mk n) ::
      rest.filterMap fun chunk =>
        match chunk.reverse with
        | c :: body => if c = cbrCh then (natFromChars body.reverse).map PathSeg.idx else none
        | [] => none

/-- Look up a key in a JSON object field list (first match). -/
def lookupField : List (String × Json) → String → Option Json
  | [], _ => none
  | (k, v) :: rest, name => if k == name then some v else lookupField rest name

/-- Modelled from the spec: resolution walks the current JSON value — on an
object, look up by key; on an array at an integer segment, index; any other
mismatch yields absent (spec section 4.2). -/
def resolveSeg (v : Json) : PathSeg → Option Json
  | PathSeg.key name =>
    match v with
    | Json.obj fs => lookupField fs name
    | _ => none
  | PathSeg.idx i =>
    match v with
    | Json.arr xs => xs[i]?
    | _ => none

/-- Modelled from the spec: resolve a dotted path (split at unquoted dots)
on a record, yielding an optional JSON value; missing segments yield absent
(spec sections 3 and 4.2).  The record is the root JSON object. -/
def resolvePath (r : Record) (path : String) : Option Json :=
  ((splitCharQ dotCh false path.data).flatMap parseSegChars).foldl
    (fun acc s => acc.bind fun v => resolveSeg v s) (some (Json.obj r))

/- ## Operator semantics (spec section 4.3.2) -/

/-- Modelled from the spec: condition operators (spec section 3). -/
inductive Op where
  | eq | ne | lt | le | gt | ge
  | inList | notInList
  | containsOp | notContainsOp
  | startsWithOp | notStartsWithOp
  | endsWithOp | notEndsWithOp
  | matchOp | likeOp
  | isNull | isNotNull
deriving DecidableEq

/-- Modelled from the spec: atom literals — single-quoted string, bare
number, boolean, or a parenthesized list for IN (spec sections 3, 4.3.2). -/
inductive Lit where
  | str (s : String) : Lit
  | num (n : Int) : Lit
  | bool (b : Bool) : Lit
  | list (xs : List Lit) : Lit

/-- Equality between a resolved JSON scalar and a literal
(spec section 4.3.2: string/number/bool equality). -/
def litEqVal : Json → Lit → Bool
  | Json.str s, Lit.str t => s == t
  | Json.num n, Lit.num m => n == m
  | Json.bool a, Lit.bool b => a == b
  | _, _ => false

/-- Stringification of a resolved value for the string operators; collection
values and null are a type mismatch (spec section 4.2). -/
def jsonAsString : Json → Option String
  | Json.str s => some s
  | Json.num n => some (toString n)
  | Json.bool true => some "true"
  | Json.bool false => some "false"
  | _ => none

/-- Numeric coercion of a resolved value (spec section 4.3.2: both sides of
an ordering comparison are coerced to number). -/
def jsonAsNum : Json → Option Int
  | Json.num n => some n
  | Json.str s => intFromChars s.data
  | _ => none

/-- Numeric coercion of a literal. -/
def litAsNum : Lit → Option Int
  | Lit.num n => some n
  | Lit.str s => intFromChars s.data
  | _ => none

/-- String view of a literal; non-string literals are a type mismatch for
the string operators. -/
def litAsString : Lit → Option String
  | Lit.str s => some s
  | _ => none

/-- Is the value JSON null? -/
def isNullJson : Json → Bool
  | Json.null => true
  | _ => false

/-- Substring occurrence test used by CONTAINS (case-sensitive). -/
def hasRun (sub : List Char) : List Char → Bool
  | [] => sub.isEmpty
  | c :: cs => leadsWith sub (c :: cs) || hasRun sub cs

/-- Anchored wildcard matching shared by MATCH (`*`/`?`) and LIKE (`%`/`_`)
(spec section 4.3.2). -/
def globChars (star one : Char) : List Char → List Char → Bool
  | [], [] => true
  | [], _ :: _ => false
  | p :: ps, [] => if p = star then globChars star one ps [] else false
  | p :: ps, c :: cs =>
    if p = star then
      globChars star one ps (c :: cs) || globChars star one (p :: ps) cs
    else if p = one then
      globChars star one ps cs
    else
      p = c && globChars star one ps cs
termination_by p s => (p.length, s.length)

/-- Numeric comparison helper: both sides coerced to number, non-numeric
yields false (spec section 4.3.2). -/
def numCmp (cmp : Int → Int → Bool) (j : Json) (k : Lit) : Bool :=
  match jsonAsNum j, litAsNum k with
  | some a, some b => cmp a b
  | _, _ => false

/-- String-operator helper: both sides must view as strings, otherwise type
mismatch yields false. -/
def strOp (f : String → String → Bool) (j : Json) (k : Lit) : Bool :=
  match jsonAsString j, litAsString k with
  | some s, some t => f s t
  | _, _ => false

/-- Modelled from the spec: the operator-semantics table of section 4.3.2.
`v = none` is the absent case: every operator except IS NULL yields false
there, IS NULL yields true. -/
def applyOp (op : Op) (v : Option Json) (k : Lit) : Bool :=
  match v with
  | none =>
    match op with
    | Op.isNull => true
    | _ => false
  | some j =>
    match op with
    | Op.eq => litEqVal j k
    | Op.ne => !(litEqVal j k)
    | Op.lt => numCmp (fun a b => decide (a < b)) j k
    | Op.le => numCmp (fun a b => decide (a ≤ b)) j k
    | Op.gt => numCmp (fun a b => decide (a > b)) j k
    | Op.ge => numCmp (fun a b => decide (a ≥ b)) j k
    | Op.inList =>
      match k with
      | Lit.list xs => xs.any (litEqVal j)
      | _ => false
    | Op.notInList =>
      match k with
      | Lit.list xs => !(xs.any (litEqVal j))
      | _ => false
    | Op.containsOp => strOp (fun s t => hasRun t.data s.data) j k
    | Op.notContainsOp => strOp (fun s t => !(hasRun t.data s.data)) j k
    | Op.startsWithOp => strOp (fun s t => leadsWith t.data s.data) j k
    | Op.notStartsWithOp => strOp (fun s t => !(leadsWith t.data s.data)) j k
    | Op.endsWithOp => strOp (fun s t => trailsWith t.data s.data) j k
    | Op.notEndsWithOp => strOp (fun s t => !(trailsWith t.data s.data)) j k
    | Op.matchOp =>
      strOp (fun s t => globChars (Char.ofNat 42) (Char.ofNat 63) t.data s.data) j k
    | Op.likeOp =>
      strOp (fun s t => globChars (Char.ofNat 37) (Char.ofNat 95) t.data s.data) j k
    | Op.isNull => isNullJson j
    | Op.isNotNull => !(isNullJson j)

/-- Evaluation of an atomic condition `path op literal` on a record:
resolve the path, then apply the operator semantics. -/
def evalPathOp (r : Record) (p : String) (op : Op) (k : Lit) : Bool :=
  applyOp op (resolvePath r p) k

/-- C2: for every record, every field path that does not resolve on it and
every literal, the atomic condition yields false for every operator other
than IS NULL (including the negated operators `!=`, `<>`, NOT IN,
NOT CONTAINS, NOT STARTSWITH and NOT ENDSWITH), while IS NULL yields true
and IS NOT NULL yields false. -/
theorem absent_path_operator_semantics (r : Record) (p : String) (k : Lit)
    (h : resolvePath r p = none) :
    (∀ op : Op, op ≠ Op.isNull → evalPathOp r p op k = false) ∧
    evalPathOp r p Op.isNull k = true ∧
    evalPathOp r p Op.isNotNull k = false := by
  refine ⟨fun op hop => ?_, ?_, ?_⟩
  · unfold evalPathOp
    rw [h]
    cases op <;> simp [applyOp] at hop ⊢
  · unfold evalPathOp
    rw [h]
    rfl
  · unfold evalPathOp
    rw [h]
    rfl

/-- Witness for C2 at a concrete record lacking the field `b`: the negated
operator `!=` still yields false, IS NULL yields true. -/
theorem absent_path_operator_semantics_witness :
    resolvePath [("a", Json.num 1)] "b" = none ∧
    evalPathOp [("a", Json.num 1)] "b" Op.ne (Lit.str "x") = false ∧
    evalPathOp [("a", Json.num 1)] "b" Op.isNull (Lit.str "x") = true := by
  refine ⟨rfl, ?_, ?_⟩
  · exact (absent_path_operator_semantics [("a", Json.num 1)] "b" (Lit.str "x") rfl).1
      Op.ne (by decide)
  · exact (absent_path_operator_semantics [("a", Json.num 1)] "b" (Lit.str "x") rfl).2.1

/- ## Condition parsing and evaluation (spec section 4.3.1) -/

/-- Try to match `tok` (case-insensitive) at the head of `s`; on success
return the remainder after the token. -/
def matchTokAt : List Char → List Char → Option (List Char)
  | [], s => some s
  | _ :: _, [] => none
  | t :: ts, c :: cs => if t.toUpper = c.toUpper then matchTokAt ts cs else none

/-- Find the first occurrence of `tok` outside single-quoted regions; return
the characters before it and the remainder after it. -/
def findTokQ (tok : List Char) : Bool → List Char → Option (List Char × List Char)
  | _, [] => none
  | inQ, c :: cs =>
    if c = quoteCh then
      (findTokQ tok (!inQ) cs).map fun pr => (c :: pr.1, pr.2)
    else if inQ then
      (findTokQ tok inQ cs).map fun pr => (c :: pr.1, pr.2)
    else
      match matchTokAt tok (c :: cs) with
      | some rest => some ([], rest)
      | none => (findTokQ tok inQ cs).map fun pr => (c :: pr.1, pr.2)

/-- Split on every occurrence of `tok` outside quotes (fuel-bounded; the
fuel is always instantiated with more than the length of the input, which
bounds the number of possible splits). -/
def splitTokAll (tok : List Char) : Nat → List Char → List (List Char)
  | 0, s => [s]
  | fuel + 1, s =>
    match findTokQ tok false s with
    | none => [s]
    | some (pre, post) => pre :: splitTokAll tok fuel post

/-- Split at the first unquoted closing parenthesis: characters before it
and after it. -/
def splitAtFirstClose : Bool → List Char → Option (List Char × List Char)
  | _, [] => none
  | inQ, c :: cs =>
    if c = quoteCh then (splitAtFirstClose (!inQ) cs).map fun pr => (c :: pr.1, pr.2)
    else if inQ then (splitAtFirstClose inQ cs).map fun pr => (c :: pr.1, pr.2)
    else if c = closeCh then some ([], cs)
    else (splitAtFirstClose inQ cs).map fun pr => (c :: pr.1, pr.2)

/-- Does this text end with the IN keyword (so that a following
parenthesized list is an IN-list literal, not a grouped sub-expression)? -/
def isInTail (cs : List Char) : Bool :=
  let up := (trimChars cs).map Char.toUpper
  up = "IN".data || trailsWith " IN".data up

/-- Rebuild the text preceding a found group from the processed prefix and
the still-open enclosing parentheses. -/
def rebuildPre (processed : List Char) (stack : List (Bool × List Char)) : List Char :=
  stack.reverse.foldl (fun acc fr => acc ++ [openCh] ++ fr.2) processed

/-- Modelled from the spec: locate an innermost balanced parenthesized
group that encloses a sub-expression (spec section 4.3.1 step 1), returning
the part before the group, the group contents, and the part after.  A
parenthesized IN list (parentheses preceded by the IN keyword) is part of
an atom, not a grouped sub-expression, and is folded back into its
enclosing text.  The stack carries one frame per open parenthesis: whether
it opens an IN list, and the contents read so far. -/
def findGroupAux (inQ : Bool) (processed : List Char)
    (stack : List (Bool × List Char)) :
    List Char → Option (List Char × List Char × List Char)
  | [] => none
  | c :: cs =>
    if c = quoteCh then
      match stack with
      | [] => findGroupAux (!inQ) (processed ++ [c]) [] cs
      | (isIn, content) :: rest => findGroupAux (!inQ) processed ((isIn, content ++ [c]) :: rest) cs
    else if inQ then
      match stack with
      | [] => findGroupAux inQ (processed ++ [c]) [] cs
      | (isIn, content) :: rest => findGroupAux inQ processed ((isIn, content ++ [c]) :: rest) cs
    else if c = openCh then
      match stack with
      | [] => findGroupAux inQ processed [(isInTail processed, [])] cs
      | (isIn, content) :: rest =>
        findGroupAux inQ processed ((isInTail content, []) :: (isIn, content) :: rest) cs
    else if c = closeCh then
      match stack with
      | [] => findGroupAux inQ (processed ++ [c]) [] cs
      | (isIn, content) :: rest =>
        if isIn then
          match rest with
          | [] => findGroupAux inQ (processed ++ [openCh] ++ content ++ [closeCh]) [] cs
          | (pIn, pContent) :: rs =>
            findGroupAux inQ processed
              ((pIn, pContent ++ [openCh] ++ content ++ [closeCh]) :: rs) cs
        else
          some (rebuildPre processed rest, content, cs)
    else
      match stack with
      | [] => findGroupAux inQ (processed ++ [c]) [] cs
      | (isIn, content) :: rest => findGroupAux inQ processed ((isIn, content ++ [c]) :: rest) cs

/-- Locate the innermost substitutable parenthesized group of a condition
string (spec section 4.3.1 step 1). -/
def findGroup (s : List Char) : Option (List Char × List Char × List Char) :=
  findGroupAux false [] [] s

/-- The body of a condition atom after stripping any leading NOT: a boolean
constant (used for substituted groups) or `path op literal`. -/
inductive AtomCore where
  | constBool (b : Bool) : AtomCore
  | cond (path : String) (op : Op) (lit : Lit) : AtomCore

/-- A parsed condition atom: optional negation around a core. -/
structure PAtom where
  negated : Bool
  core : AtomCore

/-- Parse a quoted-string body after the opening quote, decoding doubled
quotes; fails on an unterminated literal or trailing characters. -/
def parseQuotedBody : List Char → Option (List Char)
  | [] => none
  | c :: cs =>
    if c = quoteCh then
      match cs with
      | [] => some []
      | c2 :: cs2 =>
        if c2 = quoteCh then (parseQuotedBody cs2).map fun body => quoteCh :: body
        else none
    else (parseQuotedBody cs).map fun body => c :: body

/-- Parse a scalar literal (quoted string, boolean, or decimal integer)
from trimmed characters. -/
def parseScalarLit (cs : List Char) : Option Lit :=
  match cs with
  | [] => none
  | c :: rest =>
    if c = quoteCh then (parseQuotedBody rest).map fun b => Lit.str (String.mk b)
    else
      let up := (c :: rest).map Char.toUpper
      if up = "TRUE".data then some (Lit.bool true)
      else if up = "FALSE".data then some (Lit.bool false)
      else (intFromChars (c :: rest)).map Lit.num

/-- Parse the comma-separated elements of an IN list. -/
def parseInElems (content : List Char) : Option Lit :=
  ((splitCharQ commaCh false content).mapM fun p => parseScalarLit (trimChars p)).map Lit.list

/-- Parse a condition literal: scalar, or a parenthesized IN list
(spec section 3: literals). -/
def parseLitChars (cs : List Char) : Option Lit :=
  match cs with
  | [] => none
  | c :: rest =>
    if c = openCh then
      match splitAtFirstClose false rest with
      | some (content, post) =>
        if (trimChars post).isEmpty then parseInElems content else none
      | none => none
    else parseScalarLit (c :: rest)

/-- Modelled from the spec: operator tokens recognised longest-match-first
(spec section 4.3.1 step 5).  Word operators require surrounding spaces. -/
def opTokens : List (List Char × Op) :=
  [(" NOT STARTSWITH ".data, Op.notStartsWithOp),
   (" NOT ENDSWITH ".data, Op.notEndsWithOp),
   (" NOT CONTAINS ".data, Op.notContainsOp),
   (" STARTSWITH ".data, Op.startsWithOp),
   (" ENDSWITH ".data, Op.endsWithOp),
   (" CONTAINS ".data, Op.containsOp),
   (" NOT IN ".data, Op.notInList),
   (" MATCH ".data, Op.matchOp),
   (" LIKE ".data, Op.likeOp),
   (" IN ".data, Op.inList),
   (">=".data, Op.ge),
   ("<=".data, Op.le),
   ("!=".data, Op.ne),
   ("<>".data, Op.ne),
   ("=".data, Op.eq),
   ("<".data, Op.lt),
   (">".data, Op.gt)]

/-- Find the first operator token (in longest-match-first order) occurring
outside quotes, and split the atom there into `path op literal`. -/
def findOpSplit : List (List Char × Op) → List Char → Option AtomCore
  | [], _ => none
  | (tok, op) :: rest, cs =>
    match findTokQ tok false cs with
    | some (pre, post) =>
      (parseLitChars (trimChars post)).map fun k =>
        AtomCore.cond (String.mk (trimChars pre)) op k
    | none => findOpSplit rest cs

/-- Parse the core of an atom: boolean constant, `path IS [NOT] NULL`, or
`path op literal` with operators recognised longest-match-first
(spec section 4.3.1 step 5). -/
def parseAtomCore (cs : List Char) : Option AtomCore :=
  let up := cs.map Char.toUpper
  if up = "TRUE".data then some (AtomCore.constBool true)
  else if up = "FALSE".data then some (AtomCore.constBool false)
  else if trailsWith " IS NOT NULL".data up then
    some (AtomCore.cond (String.mk (trimChars (dropLastN 12 cs))) Op.isNotNull (Lit.str ""))
  else if trailsWith " IS NULL".data up then
    some (AtomCore.cond (String.mk (trimChars (dropLastN 8 cs))) Op.isNull (Lit.str ""))
  else findOpSplit opTokens cs

/-- Parse an atom: trim, strip an optional leading NOT (which negates the
atom, spec section 4.3.1 step 4), then parse the core. -/
def parseAtomChars (cs : List Char) : Option PAtom :=
  let t := trimChars cs
  if leadsWith "NOT ".data (t.map Char.toUpper) then
    (parseAtomCore (trimChars (t.drop 4))).map fun core => PAtom.mk true core
  else
    (parseAtomCore t).map fun core => PAtom.mk false core

/-- Evaluate a parsed atom core on a record. -/
def evalAtomCore (r : Record) : AtomCore → Bool
  | AtomCore.constBool b => b
  | AtomCore.cond p op k => evalPathOp r p op k

/-- Evaluate an atom string on a record; unparseable atoms evaluate to
false. -/
def evalAtomChars (cs : List Char) (r : Record) : Bool :=
  match parseAtomChars cs with
  | none => false
  | some pa => if pa.negated then !(evalAtomCore r pa.core) else evalAtomCore r pa.core

/-- The top-level OR keyword delimiter. -/
def orTok : List Char := " OR ".data

/-- The top-level AND keyword delimiter. -/
def andTok : List Char := " AND ".data

/-- Modelled from the spec: with no parentheses remaining, split by OR at
the top level (case-insensitive, outside quotes) into OR-clauses, split
each OR-clause by AND into atoms, and combine (spec section 4.3.1
steps 2–3). -/
def evalNoParens (s : List Char) (r : Record) : Bool :=
  (splitTokAll orTok (s.length + 1) s).any fun clause =>
    (splitTokAll andTok (clause.length + 1) clause).all fun a => evalAtomChars a r

/-- The characters substituted for a true group. -/
def trueChars : List Char := "true".data

/-- The characters substituted for a false group. -/
def falseChars : List Char := "false".data

/-- Modelled from the spec: recursively evaluate the innermost parenthesized
sub-expression first and substitute it by the literal `true` or `false`
before continuing (spec section 4.3.1 step 1).  Each substitution removes
one parenthesis pair, so a fuel larger than the number of opening
parentheses (we pass the input length plus one) never runs out. -/
def evalCondChars : Nat → List Char → Record → Bool
  | 0, s, r => evalNoParens s r
  | fuel + 1, s, r =>
    match findGroup s with
    | none => evalNoParens s r
    | some (pre, inner, post) =>
      evalCondChars fuel
        (pre ++ (if evalNoParens inner r then trueChars else falseChars) ++ post) r

/-- Modelled from the spec: evaluate a condition string on a record
(spec section 4.3.1). -/
def evalCondition (s : String) (r : Record) : Bool :=
  evalCondChars (s.data.length + 1) s.data r

/- ## Condition expression tree (spec section 3, Condition Expression) -/

/-- Modelled from the spec: the recursively defined condition expression
tree — atoms, NOT, AND, OR and grouping (spec section 3). -/
inductive CondExpr where
  | atom (path : String) (op : Op) (lit : Lit) : CondExpr
  | constBool (b : Bool) : CondExpr
  | notE (e : CondExpr) : CondExpr
  | andE (a b : CondExpr) : CondExpr
  | orE (a b : CondExpr) : CondExpr
  | group (e : CondExpr) : CondExpr

/-- Modelled from the spec: recursive evaluation of the expression tree;
grouping is transparent (spec sections 3 and 9). -/
def evalExpr : CondExpr → Record → Bool
  | CondExpr.atom p op k, r => evalPathOp r p op k
  | CondExpr.constBool b, _ => b
  | CondExpr.notE e, r => !(evalExpr e r)
  | CondExpr.andE a b, r => evalExpr a r && evalExpr b r
  | CondExpr.orE a b, r => evalExpr a r || evalExpr b r
  | CondExpr.group e, r => evalExpr e r

/- ## Scan orchestrator (spec section 4.5) -/

/-- An alert as produced per rule and scan (spec section 3, Alert). -/
structure ScanAlert where
  rule_id : String
  rule_title : String
  severity : String
  match_count : Nat
  evidence : List Record

/-- The rule attributes consumed by a scan. -/
structure RuleSpec where
  id : String
  title : String
  severity : String
  condition : String

/-- Modelled from the spec: for one rule without aggregation, collect the
matching records and emit one alert iff at least one record matches, with
evidence capped at 100 (spec section 4.5 steps 2b, 2d, 3). -/
def runScanRule (rule : RuleSpec) (records : List Record) : List ScanAlert :=
  let hits := records.filter fun r => evalCondition rule.condition r
  if hits.length ≥ 1 then
    [⟨rule.id, rule.title, rule.severity, hits.length, hits.take 100⟩]
  else
    []

/- ## The cross-format negative scenario (spec section 8, scenario 2) -/

/-- The rule condition of the cross-format negative scenario. -/
def crossFormatCondition : String :=
  "verb != \x27\x27 AND (userAgent CONTAINS \x27python\x27 OR userAgent CONTAINS \x27curl\x27)"

theorem evalAtom_ua_python (r : Record) (hu : resolvePath r "userAgent" = none) :
    evalAtomChars "userAgent CONTAINS \x27python\x27".data r = false := by
  have e : evalAtomChars "userAgent CONTAINS \x27python\x27".data r
      = applyOp Op.containsOp (resolvePath r "userAgent") (Lit.str "python") := rfl
  rw [e, hu]
  rfl

theorem evalAtom_ua_curl (r : Record) (hu : resolvePath r "userAgent" = none) :
    evalAtomChars "userAgent CONTAINS \x27curl\x27".data r = false := by
  have e : evalAtomChars "userAgent CONTAINS \x27curl\x27".data r
      = applyOp Op.containsOp (resolvePath r "userAgent") (Lit.str "curl") := rfl
  rw [e, hu]
  rfl

theorem evalAtom_verb_ne (r : Record) (hv : resolvePath r "verb" = none) :
    evalAtomChars "verb != \x27\x27".data r = false := by
  have e : evalAtomChars "verb != \x27\x27".data r
      = applyOp Op.ne (resolvePath r "verb") (Lit.str "") := rfl
  rw [e, hv]
  rfl

theorem crossFormat_eval_false (r : Record)
    (hv : resolvePath r "verb" = none) (hu : resolvePath r "userAgent" = none) :
    evalCondition crossFormatCondition r = false := by
  have hInner :
      evalNoParens "userAgent CONTAINS \x27python\x27 OR userAgent CONTAINS \x27curl\x27".data r
      = false := by
    have e :
        evalNoParens "userAgent CONTAINS \x27python\x27 OR userAgent CONTAINS \x27curl\x27".data r
        = ((evalAtomChars "userAgent CONTAINS \x27python\x27".data r && true) ||
           ((evalAtomChars "userAgent CONTAINS \x27curl\x27".data r && true) || false)) := rfl
    rw [e, evalAtom_ua_python r hu, evalAtom_ua_curl r hu]
    rfl
  have step1 : evalCondition crossFormatCondition r
      = evalCondChars crossFormatCondition.data.length
          ("verb != \x27\x27 AND ".data ++
            (if evalNoParens
                "userAgent CONTAINS \x27python\x27 OR userAgent CONTAINS \x27curl\x27".data r
             then trueChars else falseChars) ++ []) r := rfl
  rw [step1, hInner]
  simp only [Bool.false_eq_true, if_false]
  have step2 : evalCondChars crossFormatCondition.data.length
      ("verb != \x27\x27 AND ".data ++ falseChars ++ []) r
      = ((evalAtomChars "verb != \x27\x27".data r &&
          (evalAtomChars "false".data r && true)) || false) := rfl
  rw [step2, evalAtom_verb_ne r hv]
  rfl

theorem crossFormat_scan_empty (ru : RuleSpec) (records : List Record)
    (hc : ru.condition = crossFormatCondition)
    (hrec : ∀ r ∈ records, resolvePath r "verb" = none ∧ resolvePath r "userAgent" = none) :
    runScanRule ru records = [] := by
  have hfilter : records.filter (fun r => evalCondition ru.condition r) = [] := by
    rw [List.filter_eq_nil_iff]
    intro a ha
    rw [hc, crossFormat_eval_false a (hrec a ha).1 (hrec a ha).2]
    simp
  unfold runScanRule
  rw [hfilter]
  rfl

/-- C3 counterexample: for the sub-expressions X = `p IS NULL OR p IS NULL`
and P = `p IS NOT NULL`, the condition string `X AND (P)` evaluates to true
on the empty record although X evaluates to true and P evaluates to false,
so the string-level evaluation is not the conjunction of the two parts
(the OR-clause split binds AND tighter than OR). -/
theorem paren_conjunction_counterexample :
    "p IS NULL OR p IS NULL" ++ " AND (" ++ "p IS NOT NULL" ++ ")"
      = "p IS NULL OR p IS NULL AND (p IS NOT NULL)" ∧
    evalCondition "p IS NULL OR p IS NULL AND (p IS NOT NULL)" [] = true ∧
    evalCondition "p IS NULL OR p IS NULL" [] = true ∧
    evalCondition "p IS NOT NULL" [] = false := by
  exact ⟨rfl, rfl, rfl, rfl⟩

/-- C3 (amended): parenthesized groups are evaluated before the AND/OR
split; on the condition expression tree, `X AND (P)` evaluates to the
conjunction of X and P for all sub-expressions X and P; in particular, the
condition `verb != '' AND (userAgent CONTAINS 'python' OR userAgent
CONTAINS 'curl')` evaluates to false on every record that lacks both the
verb field and the userAgent field, and a scan of such records with a rule
carrying that condition yields 0 alerts. -/
theorem paren_group_conjunction :
    (∀ (X P : CondExpr) (r : Record),
        evalExpr (CondExpr.andE X (CondExpr.group P)) r
          = (evalExpr X r && evalExpr P r)) ∧
    (∀ r : Record, resolvePath r "verb" = none → resolvePath r "userAgent" = none →
        evalCondition crossFormatCondition r = false) ∧
    (∀ (ru : RuleSpec) (records : List Record), ru.condition = crossFormatCondition →
        (∀ r ∈ records, resolvePath r "verb" = none ∧ resolvePath r "userAgent" = none) →
        runScanRule ru records = []) := by
  refine ⟨fun X P r => rfl, crossFormat_eval_false, crossFormat_scan_empty⟩

/-- Witness for C3 at a concrete CloudTrail-style record lacking both
fields: the condition evaluates to false and the scan yields no alert. -/
theorem paren_group_conjunction_witness :
    resolvePath [("eventName", Json.str "X")] "verb" = none ∧
    resolvePath [("eventName", Json.str "X")] "userAgent" = none ∧
    evalCondition crossFormatCondition [("eventName", Json.str "X")] = false ∧
    runScanRule ⟨"r1", "t", "high", crossFormatCondition⟩ [[("eventName", Json.str "X")]]
      = [] := by
  refine ⟨rfl, rfl, ?_, ?_⟩
  · exact paren_group_conjunction.2.1 [("eventName", Json.str "X")] rfl rfl
  · exact paren_group_conjunction.2.2 ⟨"r1", "t", "high", crossFormatCondition⟩
      [[("eventName", Json.str "X")]] rfl
      (by
        intro r hr
        rw [List.mem_singleton] at hr
        subst hr
        exact ⟨rfl, rfl⟩)

/- ## Frontend command invocations (translated from the TypeScript services) -/

/-- One backend invocation as issued by the frontend: the command name and
the keys of the argument object, in source order.  Translated from the
`invoke(name, argObject)` calls of the services and components. -/
structure InvokeCall where
  cmd : String
  argKeys : List String
deriving DecidableEq

/-- ruleService.listRules: `invoke("list_rules")`. -/
def listRulesCall : InvokeCall := ⟨"list_rules", []⟩

/-- ruleService.getRule: `invoke("get_rule", \x7b ruleId \x7d)`. -/
def getRuleCall : InvokeCall := ⟨"get_rule", ["ruleId"]⟩

/-- ruleService.saveRule: `invoke("save_rule", \x7b rule \x7d)`. -/
def saveRuleCall : InvokeCall := ⟨"save_rule", ["rule"]⟩

/-- ruleService.deleteRule: `invoke("delete_rule", \x7b ruleId \x7d)`. -/
def deleteRuleCall : InvokeCall := ⟨"delete_rule", ["ruleId"]⟩

/-- ruleService.exportRule: `invoke("export_rule", \x7b ruleId, destPath \x7d)`. -/
def exportRuleCall : InvokeCall := ⟨"export_rule", ["ruleId", "destPath"]⟩

/-- ruleService.exportAllRules: `invoke("export_all_rules", \x7b destPath \x7d)`. -/
def exportAllRulesCall : InvokeCall := ⟨"export_all_rules", ["destPath"]⟩

/-- ruleService.importRule: `invoke("import_rule", \x7b sourcePath, overwrite \x7d)`. -/
def importRuleCall : InvokeCall := ⟨"import_rule", ["sourcePath", "overwrite"]⟩

/-- ruleService.importMultipleRules:
`invoke("import_multiple_rules", \x7b filePaths, overwrite \x7d)`. -/
def importMultipleRulesCall : InvokeCall := ⟨"import_multiple_rules", ["filePaths", "overwrite"]⟩

/-- ruleService.importRulesZip:
`invoke("import_rules_zip", \x7b zipPath, overwrite \x7d)`. -/
def importRulesZipCall : InvokeCall := ⟨"import_rules_zip", ["zipPath", "overwrite"]⟩

/-- logService.listLogFiles: `invoke("list_log_files")`. -/
def listLogFilesCall : InvokeCall := ⟨"list_log_files", []⟩

/-- logService.importLogFile:
`invoke("import_log_file", \x7b sourcePath, logType \x7d)`. -/
def importLogFileCall : InvokeCall := ⟨"import_log_file", ["sourcePath", "logType"]⟩

/-- logService.importMultipleLogFiles:
`invoke("import_multiple_log_files", \x7b sourcePaths, logType \x7d)`. -/
def importMultipleLogFilesCall : InvokeCall :=
  ⟨"import_multiple_log_files", ["sourcePaths", "logType"]⟩

/-- logService.updateLogType: `invoke("update_log_type", \x7b filename, logType \x7d)`. -/
def updateLogTypeCall : InvokeCall := ⟨"update_log_type", ["filename", "logType"]⟩

/-- logService.deleteLogFile: `invoke("delete_log_file", \x7b filename \x7d)`. -/
def deleteLogFileCall : InvokeCall := ⟨"delete_log_file", ["filename"]⟩

/-- DashboardPage: `invoke("load_log_events", \x7b logPath, logType \x7d)`. -/
def loadLogEventsCall : InvokeCall := ⟨"load_log_events", ["logPath", "logType"]⟩

/-- scanService.scanLogs: `invoke("scan_logs", \x7b logPath, logType \x7d)`. -/
def scanLogsCall : InvokeCall := ⟨"scan_logs", ["logPath", "logType"]⟩

/-- scanService.scanAllLogs: `invoke("scan_all_logs")`. -/
def scanAllLogsCall : InvokeCall := ⟨"scan_all_logs", []⟩

/-- scanService.validateLogFile: `invoke("validate_log_file", \x7b logPath \x7d)`. -/
def validateLogFileCall : InvokeCall := ⟨"validate_log_file", ["logPath"]⟩

/-- RuleTestPanel.validateSyntax: `invoke("validate_condition", \x7b condition \x7d)`. -/
def validateConditionCall : InvokeCall := ⟨"validate_condition", ["condition"]⟩

/-- RuleTestPanel.testRule: `invoke("test_rule", \x7b condition, logPath, logType \x7d)`. -/
def testRuleCall : InvokeCall := ⟨"test_rule", ["condition", "logPath", "logType"]⟩

/-- queryService.runQuery: `invoke("run_query", \x7b query \x7d)`. -/
def runQueryCall : InvokeCall := ⟨"run_query", ["query"]⟩

/-- All frontend invocations of the section-6 command surface, in the
order the section-6 table lists the commands. -/
def frontendOperationCalls : List InvokeCall :=
  [listRulesCall, getRuleCall, saveRuleCall, deleteRuleCall, exportRuleCall,
   exportAllRulesCall, importRuleCall, importMultipleRulesCall, importRulesZipCall,
   listLogFilesCall, importLogFileCall, importMultipleLogFilesCall,
   updateLogTypeCall, deleteLogFileCall, loadLogEventsCall, scanLogsCall,
   scanAllLogsCall, validateLogFileCall, validateConditionCall, testRuleCall,
   runQueryCall]

/-- C6: every frontend operation invokes the backend command under exactly
the name the section-6 table lists for it, and no other name is used for
any of these operations. -/
theorem frontend_command_names_match_table :
    frontendOperationCalls.map InvokeCall.cmd =
      ["list_rules", "get_rule", "save_rule", "delete_rule", "export_rule",
       "export_all_rules", "import_rule", "import_multiple_rules",
       "import_rules_zip", "list_log_files", "import_log_file",
       "import_multiple_log_files", "update_log_type", "delete_log_file",
       "load_log_events", "scan_logs", "scan_all_logs", "validate_log_file",
       "validate_condition", "test_rule", "run_query"] := by
  decide

/-- C1 (the claim fails on the code): the frontend passes camelCase keys,
not the snake_case keys of the section-6 table — `get_rule` is invoked with
key `ruleId` rather than `rule_id`, `scan_logs` with `logPath`/`logType`
rather than `log_path`/`log_type`, `import_log_file` with
`sourcePath`/`logType`, `load_log_events` with `logPath`/`logType` — which
the repository fix notes document as causing invalid-argument errors. -/
theorem invoke_arg_keys_are_camelCase :
    getRuleCall.argKeys = ["ruleId"] ∧
    getRuleCall.argKeys ≠ ["rule_id"] ∧
    scanLogsCall.argKeys = ["logPath", "logType"] ∧
    scanLogsCall.argKeys ≠ ["log_path", "log_type"] ∧
    importLogFileCall.argKeys = ["sourcePath", "logType"] ∧
    importLogFileCall.argKeys ≠ ["source_path", "log_type"] ∧
    loadLogEventsCall.argKeys = ["logPath", "logType"] ∧
    loadLogEventsCall.argKeys ≠ ["log_path", "log_type"] ∧
    importMultipleRulesCall.argKeys = ["filePaths", "overwrite"] ∧
    importMultipleRulesCall.argKeys ≠ ["file_paths", "overwrite"] := by
  decide

/- ## Rules-page import accounting (translated from handleImportRules) -/

/-- The rule ImportSummary as declared in the rules service:
`success_count`, `skipped` (names), `errors` (messages). -/
structure ImportSummary where
  success_count : Nat
  skipped : List String
  errors : List String
deriving DecidableEq

/-- The zero summary `handleImportRules` starts from. -/
def emptySummary : ImportSummary := ⟨0, [], []⟩

/-- Accumulation of a per-call summary into the running total, translated
from the `totalSummary.success_count += ...; push(...)` statements. -/
def addSummary (a b : ImportSummary) : ImportSummary :=
  ⟨a.success_count + b.success_count, a.skipped ++ b.skipped, a.errors ++ b.errors⟩

/-- `f.toLowerCase().endsWith(".zip")`. -/
def isZipName (f : String) : Bool :=
  trailsWith ".zip".data (f.data.map Char.toLower)

/-- `f.toLowerCase().endsWith(".yaml") || f.toLowerCase().endsWith(".yml")`. -/
def isYamlName (f : String) : Bool :=
  trailsWith ".yaml".data (f.data.map Char.toLower) ||
  trailsWith ".yml".data (f.data.map Char.toLower)

/-- Translated from the rules-page `handleImportRules`: partition the
selected files into ZIP files and YAML files by extension, import each ZIP
through `import_rules_zip`, then the YAML batch (when non-empty) through
`import_multiple_rules`, and accumulate the returned summaries.  The
backend calls are abstracted as functions. -/
def handleImportRules (files : List String)
    (zipImport : String → ImportSummary)
    (batchImport : List String → ImportSummary) : ImportSummary :=
  let zipFiles := files.filter isZipName
  let yamlFiles := files.filter isYamlName
  let afterZips := zipFiles.foldl (fun acc z => addSummary acc (zipImport z)) emptySummary
  if yamlFiles.length > 0 then addSummary afterZips (batchImport yamlFiles) else afterZips

/-- The import-summary accounting equation for `n` submitted files. -/
def accounts (s : ImportSummary) (n : Nat) : Prop :=
  s.success_count + s.skipped.length + s.errors.length = n

instance (s : ImportSummary) (n : Nat) : Decidable (accounts s n) :=
  inferInstanceAs (Decidable (_ = _))

/-- C4 counterexample: a submitted file whose name ends in neither `.zip`,
`.yaml` nor `.yml` is dropped from both backend calls and from every
category of the combined summary, so the combined summary accounts for 0
files while 1 was submitted — even though both abstracted backend calls
satisfy the accounting equation for every batch they are handed. -/
theorem import_accounting_counterexample :
    isZipName "notes.txt" = false ∧
    isYamlName "notes.txt" = false ∧
    accounts ((fun _ => (⟨1, [], []⟩ : ImportSummary)) "any.zip") 1 ∧
    accounts ((fun fs => (⟨fs.length, [], []⟩ : ImportSummary)) ["a.yaml", "b.yml"]) 2 ∧
    handleImportRules ["notes.txt"] (fun _ => ⟨1, [], []⟩) (fun fs => ⟨fs.length, [], []⟩)
      = ⟨0, [], []⟩ ∧
    ¬ accounts
        (handleImportRules ["notes.txt"] (fun _ => ⟨1, [], []⟩)
          (fun fs => ⟨fs.length, [], []⟩))
        (List.length ["notes.txt"]) := by
  decide

theorem addSummary_accounts {a b : ImportSummary} {n m : Nat}
    (ha : accounts a n) (hb : accounts b m) : accounts (addSummary a b) (n + m) := by
  unfold accounts addSummary at *
  simp only [List.length_append]
  omega

theorem foldl_zip_accounts (zipImport : String → ImportSummary) :
    ∀ (zs : List String) (acc : ImportSummary) (n : Nat),
      (∀ z ∈ zs, accounts (zipImport z) 1) → accounts acc n →
      accounts (zs.foldl (fun a z => addSummary a (zipImport z)) acc) (n + zs.length) := by
  intro zs
  induction zs with
  | nil => intro acc n _ hacc; simpa using hacc
  | cons z zs ih =>
    intro acc n hz hacc
    have step : accounts (addSummary acc (zipImport z)) (n + 1) :=
      addSummary_accounts hacc (hz z (List.mem_cons_self z zs))
    have tail := ih (addSummary acc (zipImport z)) (n + 1)
      (fun w hw => hz w (List.mem_cons_of_mem z hw)) step
    simpa [Nat.add_assoc, Nat.add_comm, Nat.add_left_comm] using tail

/-- C4 (amended): if each backend import call satisfies the accounting
equation for the batch it was handed, the combined summary reported by
`handleImportRules` accounts for exactly the submitted files whose names
end in `.zip`, `.yaml` or `.yml` (case-insensitive); a submitted file with
any other extension is silently excluded from both backend calls and from
every category of the combined summary. -/
theorem import_accounting (files : List String)
    (zipImport : String → ImportSummary)
    (batchImport : List String → ImportSummary)
    (hzip : ∀ z ∈ files.filter isZipName, accounts (zipImport z) 1)
    (hbatch : accounts (batchImport (files.filter isYamlName))
      (files.filter isYamlName).length) :
    accounts (handleImportRules files zipImport batchImport)
      ((files.filter isZipName).length + (files.filter isYamlName).length) := by
  unfold handleImportRules
  have hzips := foldl_zip_accounts zipImport (files.filter isZipName) emptySummary 0
    hzip (by decide)
  simp only [Nat.zero_add] at hzips
  by_cases hy : (files.filter isYamlName).length > 0
  · simp only [hy, if_true]
    exact addSummary_accounts hzips hbatch
  · simp only [hy, if_false]
    have : (files.filter isYamlName).length = 0 := Nat.eq_zero_of_not_pos hy
    rw [this, Nat.add_zero]
    exact hzips

/-- Witness for C4 at a concrete batch: one failing ZIP and one imported
YAML file, both calls accounting for their batches; the combined summary
accounts for the 2 matched files. -/
theorem import_accounting_witness :
    accounts
      (handleImportRules ["a.zip", "b.yaml"]
        (fun _ => ⟨0, [], ["bad zip"]⟩)
        (fun fs => ⟨fs.length, [], []⟩))
      2 := by
  have h := import_accounting ["a.zip", "b.yaml"]
    (fun _ => ⟨0, [], ["bad zip"]⟩) (fun fs => ⟨fs.length, [], []⟩)
    (by decide) (by decide)
  simpa using h

/- ## Log library import summary (translated from logService.ts) -/

/-- Log types accepted by the log library. -/
inductive LogType where
  | cloudtrail : LogType
  | flatjson : LogType
deriving DecidableEq

/-- LogFileInfo as declared in logService.ts. -/
structure LogFileInfo where
  filename : String
  path : String
  size_bytes : Nat
  modified : String
  log_type : Option LogType
deriving DecidableEq

/-- The ImportSummary interface declared in logService.ts for the log
batch import. -/
structure LogImportSummary where
  total : Nat
  succeeded : Nat
  failed : Nat
  imported_files : List LogFileInfo
  errors : List String
deriving DecidableEq

/-- The field names of the logService ImportSummary interface, in
declaration order. -/
def logImportSummaryFields : List String :=
  ["total", "succeeded", "failed", "imported_files", "errors"]

/-- Translated from LogFileSelector.handleBatchImport: after
`import_multiple_log_files` returns, a summary with failures is shown as an
error message (the batch result is still processed); with no failures the
error banner is cleared. -/
def handleBatchImportMessage (s : LogImportSummary) : Option String :=
  if s.failed > 0 then
    some ("Imported " ++ toString s.succeeded ++ "/" ++ toString s.total ++
      " files. Errors: " ++ String.intercalate ", " s.errors)
  else
    none

/-- C5 counterexample: the ImportSummary returned by
`import_multiple_log_files` does not have the section-4.4 shape — it has no
`success_count` and no `skipped` field. -/
theorem log_import_summary_shape_counterexample :
    logImportSummaryFields ≠ ["success_count", "skipped", "errors"] ∧
    "success_count" ∉ logImportSummaryFields ∧
    "skipped" ∉ logImportSummaryFields := by
  decide

/-- C5 (amended): `import_multiple_log_files` is invoked under that exact
name with keys `sourcePaths`/`logType` and returns an ImportSummary of the
shape declared in logService.ts — fields `total`, `succeeded`, `failed`,
`imported_files` and `errors` — and the frontend reports per-file failures
from the summary fields (`failed` count and `errors` messages) in an error
banner instead of aborting the batch. -/
theorem log_import_summary_shape :
    importMultipleLogFilesCall.cmd = "import_multiple_log_files" ∧
    importMultipleLogFilesCall.argKeys = ["sourcePaths", "logType"] ∧
    logImportSummaryFields = ["total", "succeeded", "failed", "imported_files", "errors"] ∧
    handleBatchImportMessage ⟨2, 1, 1, [], ["x.json failed"]⟩
      = some "Imported 1/2 files. Errors: x.json failed" ∧
    handleBatchImportMessage ⟨2, 2, 0, [], []⟩ = none := by
  refine ⟨rfl, rfl, rfl, ?_, rfl⟩
  rfl

/- ## Rule model and editor (translated from rules.ts and RuleEditor.tsx) -/

/-- The detection block of a rule (RuleYaml.detection). -/
structure Detection where
  severity : String
  condition : String
deriving DecidableEq

/-- RuleYaml as declared in the rules service. -/
structure RuleYaml where
  id : String
  title : String
  description : String
  author : String
  status : String
  date : String
  tags : List String
  detection : Detection
deriving DecidableEq

/-- JavaScript `x || d` for an optional string: the default replaces both a
missing value and an empty string. -/
def orDefault (v : Option String) (d : String) : String :=
  match v with
  | none => d
  | some s => if s == "" then d else s

/-- Translated from the RuleEditor formData initialisation: each field is
`rule?.field || default`, with status defaulting to "active", severity to
"medium" and everything else to empty. -/
def initFormData (rule : Option RuleYaml) : RuleYaml :=
  { id := orDefault (rule.map (·.id)) ""
  , title := orDefault (rule.map (·.title)) ""
  , description := orDefault (rule.map (·.description)) ""
  , author := orDefault (rule.map (·.author)) ""
  , status := orDefault (rule.map (·.status)) "active"
  , date := orDefault (rule.map (·.date)) ""
  , tags := (rule.map (·.tags)).getD []
  , detection :=
    { severity := orDefault (rule.map (·.detection.severity)) "medium"
    , condition := orDefault (rule.map (·.detection.condition)) "" } }

/-- Translated from the rules-page `handleDuplicateRule`: copy the rule
with a fresh id, a title suffixed with " (Copy)", and the date set to
`new Date().toISOString()` (a full ISO timestamp). -/
def handleDuplicateRule (rule : RuleYaml) (freshId nowIso : String) : RuleYaml :=
  { rule with id := freshId, title := rule.title ++ " (Copy)", date := nowIso }

/-- Is `s` an ISO calendar date `YYYY-MM-DD`: exactly ten characters,
digits in the year, month and day positions, dashes at positions 4 and 7? -/
def isIsoDate (s : String) : Bool :=
  match s.data with
  | [y1, y2, y3, y4, h1, m1, m2, h2, d1, d2] =>
    (digitVal y1).isSome && (digitVal y2).isSome && (digitVal y3).isSome &&
    (digitVal y4).isSome && h1.toNat = 45 && (digitVal m1).isSome &&
    (digitVal m2).isSome && h2.toNat = 45 && (digitVal d1).isSome &&
    (digitVal d2).isSome
  | _ => false

/-- A sample rule carrying a spec-conformant date, used as duplication
input. -/
def sampleRule : RuleYaml :=
  ⟨"a1b2", "Login", "d", "SOC", "active", "2026-01-05", ["aws"],
    ⟨"high", "eventName = \x27ConsoleLogin\x27"⟩⟩

/-- C7 (the code contradicts the documented date format): a rule created
fresh in the editor is submitted with the empty date, and the Duplicate
action sets the full `toISOString` timestamp — neither is a `YYYY-MM-DD`
date, although the input date was one. -/
theorem rule_date_not_calendar_date :
    (initFormData none).date = "" ∧
    isIsoDate "" = false ∧
    isIsoDate sampleRule.date = true ∧
    (handleDuplicateRule sampleRule "b3c4" "2026-10-11T07:00:00.000Z").date
      = "2026-10-11T07:00:00.000Z" ∧
    isIsoDate (handleDuplicateRule sampleRule "b3c4" "2026-10-11T07:00:00.000Z").date
      = false := by
  refine ⟨rfl, rfl, rfl, rfl, rfl⟩

/- ## Rule editor interactions (translated from RuleEditor.tsx) -/

/-- The option values offered by the RuleEditor status select. -/
def statusOptions : List String := ["active", "disabled", "experimental", "deprecated"]

/-- The option values offered by the RuleEditor severity select. -/
def severityOptions : List String := ["info", "low", "medium", "high", "critical"]

/-- Editor interactions, translated from the RuleEditor change handlers:
field edits, the status and severity selects, and tag add/remove.  Form
submit passes the current form data through unchanged. -/
inductive EditorAction where
  | setTitle (s : String) : EditorAction
  | setDescription (s : String) : EditorAction
  | setAuthor (s : String) : EditorAction
  | setStatus (s : String) : EditorAction
  | setSeverity (s : String) : EditorAction
  | setCondition (s : String) : EditorAction
  | addTag (s : String) : EditorAction
  | removeTag (s : String) : EditorAction
deriving DecidableEq

/-- A select element only emits its own option values: the status select
emits status options, the severity select severity options; every other
interaction is unconstrained. -/
def actionRespectsOptions : EditorAction → Prop
  | EditorAction.setStatus s => s ∈ statusOptions
  | EditorAction.setSeverity s => s ∈ severityOptions
  | _ => True

instance : DecidablePred actionRespectsOptions := by
  intro a
  cases a <;> unfold actionRespectsOptions <;> infer_instance

/-- One editor interaction applied to the form data, translated from the
setFormData calls of RuleEditor.tsx (addTag trims the input and skips
duplicates; removeTag filters the tag out). -/
def editorStep (fd : RuleYaml) : EditorAction → RuleYaml
  | EditorAction.setTitle s => { fd with title := s }
  | EditorAction.setDescription s => { fd with description := s }
  | EditorAction.setAuthor s => { fd with author := s }
  | EditorAction.setStatus s => { fd with status := s }
  | EditorAction.setSeverity s => { fd with detection := { fd.detection with severity := s } }
  | EditorAction.setCondition s => { fd with detection := { fd.detection with condition := s } }
  | EditorAction.addTag s =>
    if String.mk (trimChars s.data) != "" && !(fd.tags.contains (String.mk (trimChars s.data)))
    then { fd with tags := fd.tags ++ [String.mk (trimChars s.data)] }
    else fd
  | EditorAction.removeTag s => { fd with tags := fd.tags.filter (fun t => t != s) }

/-- Translated from the rules-page `handleToggleStatus`: active becomes
disabled, every other status becomes active. -/
def toggleStatus (s : String) : String :=
  if s == "active" then "disabled" else "active"

/-- The invariant: status and severity lie in their option sets. -/
def editorInv (fd : RuleYaml) : Prop :=
  fd.status ∈ statusOptions ∧ fd.detection.severity ∈ severityOptions

theorem editorStep_inv {fd : RuleYaml} {a : EditorAction}
    (hfd : editorInv fd) (ha : actionRespectsOptions a) :
    editorInv (editorStep fd a) := by
  obtain ⟨h1, h2⟩ := hfd
  cases a <;>
    simp only [editorStep, actionRespectsOptions, editorInv] at ha ⊢ <;>
    try exact ⟨h1, h2⟩
  case setStatus s => exact ⟨ha, h2⟩
  case setSeverity s => exact ⟨h1, ha⟩
  case addTag s =>
    split <;> exact ⟨h1, h2⟩

theorem foldl_editor_inv (acts : List EditorAction) :
    ∀ fd : RuleYaml, editorInv fd → (∀ a ∈ acts, actionRespectsOptions a) →
      editorInv (acts.foldl editorStep fd) := by
  induction acts with
  | nil => intro fd hfd _; simpa using hfd
  | cons a acts ih =>
    intro fd hfd hacts
    exact ih (editorStep fd a)
      (editorStep_inv hfd (hacts a (List.mem_cons_self a acts)))
      (fun b hb => hacts b (List.mem_cons_of_mem a hb))

theorem initFormData_inv (rule : Option RuleYaml)
    (hinit : ∀ ru, rule = some ru →
      ru.status ∈ statusOptions ∧ ru.detection.severity ∈ severityOptions) :
    editorInv (initFormData rule) := by
  cases rule with
  | none => exact ⟨by decide, by decide⟩
  | some ru =>
    obtain ⟨h1, h2⟩ := hinit ru rfl
    constructor
    · show (if (ru.status == "") = true then "active" else ru.status) ∈ statusOptions
      split
      · decide
      · exact h1
    · show (if (ru.detection.severity == "") = true then "medium"
        else ru.detection.severity) ∈ severityOptions
      split
      · decide
      · exact h2

/-- C8: assuming the rule loaded into the editor (if any) has status and
severity in the documented sets, every sequence of editor interactions
(with the selects emitting only their option values) keeps both fields in
those sets, and the rules-page status toggle maps active to disabled, every
non-active status to active, and always lands in the status set. -/
theorem editor_status_severity_invariant (rule : Option RuleYaml)
    (hinit : ∀ ru, rule = some ru →
      ru.status ∈ statusOptions ∧ ru.detection.severity ∈ severityOptions)
    (acts : List EditorAction) (hacts : ∀ a ∈ acts, actionRespectsOptions a) :
    ((acts.foldl editorStep (initFormData rule)).status ∈ statusOptions ∧
     (acts.foldl editorStep (initFormData rule)).detection.severity ∈ severityOptions) ∧
    toggleStatus "active" = "disabled" ∧
    (∀ s : String, s ≠ "active" → toggleStatus s = "active") ∧
    (∀ s : String, toggleStatus s ∈ statusOptions) := by
  refine ⟨foldl_editor_inv acts (initFormData rule) (initFormData_inv rule hinit) hacts,
    by decide, fun s hs => ?_, fun s => ?_⟩
  · simp [toggleStatus, hs]
  · unfold toggleStatus
    split <;> decide

/-- Witness for C8: editing a loaded experimental rule (status change,
severity change, tag edits, title edit) keeps status and severity in the
documented sets, and toggling a deprecated rule activates it. -/
theorem editor_status_severity_invariant_witness :
    (([EditorAction.setStatus "experimental", EditorAction.setSeverity "low",
       EditorAction.addTag " brute ", EditorAction.setTitle "T2",
       EditorAction.removeTag "aws"].foldl editorStep
        (initFormData (some sampleRule))).status ∈ statusOptions ∧
     ([EditorAction.setStatus "experimental", EditorAction.setSeverity "low",
       EditorAction.addTag " brute ", EditorAction.setTitle "T2",
       EditorAction.removeTag "aws"].foldl editorStep
        (initFormData (some sampleRule))).detection.severity ∈ severityOptions) ∧
    toggleStatus "deprecated" = "active" := by
  have h := editor_status_severity_invariant (some sampleRule)
    (by intro ru hru; cases hru; exact ⟨by decide, by decide⟩)
    [EditorAction.setStatus "experimental", EditorAction.setSeverity "low",
     EditorAction.addTag " brute ", EditorAction.setTitle "T2",
     EditorAction.removeTag "aws"]
    (by decide)
  exact ⟨h.1, h.2.2.1 "deprecated" (by decide)⟩

/- ## Single-file scan flow (translated from ScanPage.handleScan) -/

/-- Observable steps of the single-file scan flow: the validate_log_file
call, the scan_logs call with its format tag, and the error banner. -/
inductive ScanStep where
  | validateCall (path : String) : ScanStep
  | scanCall (path : String) (logType : String) : ScanStep
  | errorReported (msg : String) : ScanStep
deriving DecidableEq

/-- Translated from ScanPage.handleScan: return immediately when no file is
selected; otherwise call validate_log_file first; when it returns false,
throw (caught into the error banner) without scanning; when it returns
true, call scan_logs on the same path with the literal format tag
"cloudtrail". -/
def handleScan (logPath : String) (validate : String → Bool) : List ScanStep :=
  if logPath = "" then []
  else if validate logPath then
    [ScanStep.validateCall logPath, ScanStep.scanCall logPath "cloudtrail"]
  else
    [ScanStep.validateCall logPath,
     ScanStep.errorReported "Invalid log file format or cannot read file."]

/-- C9: in the single-file scan flow, scan_logs is invoked only after
validate_log_file has returned true for the same path (the trace is then
exactly validate-then-scan), every scan_logs invocation carries the format
tag "cloudtrail", and when validation returns false no scan is issued and
an error is reported instead. -/
theorem scan_validates_before_scan (logPath : String) (validate : String → Bool) :
    (∀ p ty, ScanStep.scanCall p ty ∈ handleScan logPath validate →
      p = logPath ∧ ty = "cloudtrail" ∧ validate logPath = true ∧
      handleScan logPath validate
        = [ScanStep.validateCall logPath, ScanStep.scanCall logPath "cloudtrail"]) ∧
    (logPath ≠ "" → validate logPath = false →
      (∀ p ty, ScanStep.scanCall p ty ∉ handleScan logPath validate) ∧
      ScanStep.errorReported "Invalid log file format or cannot read file."
        ∈ handleScan logPath validate) := by
  unfold handleScan
  by_cases h0 : logPath = ""
  · simp [h0]
  · by_cases hv : validate logPath = true
    · constructor
      · intro p ty hmem
        simp only [h0, if_false, hv, if_true, List.mem_cons, List.mem_singleton,
          List.not_mem_nil, or_false] at hmem
        rcases hmem with hmem | hmem
        · cases hmem
        · cases hmem
          exact ⟨rfl, rfl, hv, by simp [h0, hv]⟩
      · intro _ hfalse
        rw [hv] at hfalse
        cases hfalse
    · have hv2 : validate logPath = false := by
        cases hb : validate logPath
        · rfl
        · exact absurd hb hv
      constructor
      · intro p ty hmem
        simp only [h0, if_false, hv2, Bool.false_eq_true, List.mem_cons,
          List.mem_singleton, List.not_mem_nil, or_false] at hmem
        rcases hmem with hmem | hmem <;> cases hmem
      · intro _ _
        refine ⟨fun p ty hmem => ?_, ?_⟩
        · simp only [h0, if_false, hv2, Bool.false_eq_true, List.mem_cons,
            List.mem_singleton, List.not_mem_nil, or_false] at hmem
          rcases hmem with hmem | hmem <;> cases hmem
        · simp [h0, hv2]

/-- Witness for C9: with a validator that accepts, the trace is exactly
validate-then-scan with the cloudtrail tag; with a validator that rejects,
the error banner appears and no scan is issued. -/
theorem scan_validates_before_scan_witness :
    handleScan "f.json" (fun _ => true)
      = [ScanStep.validateCall "f.json", ScanStep.scanCall "f.json" "cloudtrail"] ∧
    ScanStep.errorReported "Invalid log file format or cannot read file."
      ∈ handleScan "f.json" (fun _ => false) ∧
    ScanStep.scanCall "f.json" "cloudtrail" ∉ handleScan "f.json" (fun _ => false) := by
  refine ⟨?_, ?_, ?_⟩
  · exact ((scan_validates_before_scan "f.json" (fun _ => true)).1 "f.json" "cloudtrail"
      (by decide)).2.2.2
  · exact ((scan_validates_before_scan "f.json" (fun _ => false)).2 (by decide) rfl).2
  · exact ((scan_validates_before_scan "f.json" (fun _ => false)).2 (by decide) rfl).1
      "f.json" "cloudtrail"

/- ## Events view alert badge (translated from EventsTab) -/

mutual

/-- A model of `JSON.stringify` on parsed event values: deterministic,
insertion-ordered serialization. -/
def serializeJson : Json → String
  | Json.null => "null"
  | Json.bool true => "true"
  | Json.bool false => "false"
  | Json.num n => toString n
  | Json.str s => "\"" ++ s ++ "\""
  | Json.arr xs => "[" ++ serializeArr xs ++ "]"
  | Json.obj fs => "\x7b" ++ serializeFields fs ++ "\x7d"

/-- Comma-joined serialization of array elements. -/
def serializeArr : List Json → String
  | [] => ""
  | [x] => serializeJson x
  | x :: y :: rest => serializeJson x ++ "," ++ serializeArr (y :: rest)

/-- Comma-joined serialization of object fields. -/
def serializeFields : List (String × Json) → String
  | [] => ""
  | [(k, v)] => "\"" ++ k ++ "\":" ++ serializeJson v
  | (k, v) :: f :: rest =>
    "\"" ++ k ++ "\":" ++ serializeJson v ++ "," ++ serializeFields (f :: rest)

end

/-- AlertEvent as declared in the scan service. -/
structure AlertEvent where
  rule_id : String
  rule_title : String
  severity : String
  timestamp : String
  match_count : Nat
  evidence : List Json

/-- Translated from EventsTab: the set of ids of events that triggered
alerts is the JSON serialization of every evidence record of every
alert. -/
def alertEventIds (alerts : List AlertEvent) : List String :=
  alerts.flatMap fun a => a.evidence.map serializeJson

/-- Translated from EventsTab.hasAlert: an event is badged iff its JSON
serialization is among the evidence serializations. -/
def hasAlert (alerts : List AlertEvent) (event : Json) : Bool :=
  (alertEventIds alerts).contains (serializeJson event)

/-- C10: a loaded event is badged as alerting iff its JSON serialization
equals the serialization of some evidence record of some alert; hence any
two events with identical serialized content are either both badged or
both unbadged, even when only one of them contributed evidence. -/
theorem event_alert_badge (alerts : List AlertEvent) (event : Json) :
    (hasAlert alerts event = true ↔
      ∃ a ∈ alerts, ∃ ev ∈ a.evidence, serializeJson ev = serializeJson event) ∧
    (∀ e1 e2 : Json, serializeJson e1 = serializeJson e2 →
      hasAlert alerts e1 = hasAlert alerts e2) := by
  constructor
  · simp [hasAlert, alertEventIds, List.mem_flatMap, List.mem_map]
  · intro e1 e2 h
    unfold hasAlert
    rw [h]

/-- Witness for C10: an event whose content equals an evidence record is
badged, and the badge is invariant under equal serialization. -/
theorem event_alert_badge_witness :
    hasAlert [⟨"r1", "t", "high", "ts", 1, [Json.obj [("eventName", Json.str "ConsoleLogin")]]⟩]
      (Json.obj [("eventName", Json.str "ConsoleLogin")]) = true ∧
    hasAlert [⟨"r1", "t", "high", "ts", 1, [Json.obj [("eventName", Json.str "ConsoleLogin")]]⟩]
        (Json.obj [("eventName", Json.str "ConsoleLogin")])
      = hasAlert [⟨"r1", "t", "high", "ts", 1, [Json.obj [("eventName", Json.str "ConsoleLogin")]]⟩]
        (Json.obj [("eventName", Json.str "ConsoleLogin")]) := by
  constructor
  · exact (event_alert_badge
      [⟨"r1", "t", "high", "ts", 1, [Json.obj [("eventName", Json.str "ConsoleLogin")]]⟩]
      (Json.obj [("eventName", Json.str "ConsoleLogin")])).1.mpr
      ⟨⟨"r1", "t", "high", "ts", 1, [Json.obj [("eventName", Json.str "ConsoleLogin")]]⟩,
        List.mem_singleton.mpr rfl,
        Json.obj [("eventName", Json.str "ConsoleLogin")],
        List.mem_singleton.mpr rfl, rfl⟩
  · exact (event_alert_badge
      [⟨"r1", "t", "high", "ts", 1, [Json.obj [("eventName", Json.str "ConsoleLogin")]]⟩]
      (Json.obj [("eventName", Json.str "ConsoleLogin")])).2
      (Json.obj [("eventName", Json.str "ConsoleLogin")])
      (Json.obj [("eventName", Json.str "ConsoleLogin")]) rfl
